import Mathlib

/-!
Verification development for the pgn2json repository.

The repository converts one chess game into a structured per-move JSON
document.  The converter's own functions
(`_determine_flags`, `_generate_move_info`, `_extract_comment`,
`convert_to_json` in `src/source/pgn2json/computation/pgn_conversion.py`,
and fragments of the older script `src/pgn2json.py`) are translated
directly from the source.  The board-state machine the converter delegates
to (the external `chess` library: `Board.piece_at`, `is_capture`,
`is_en_passant`, castling tests, `push`, `fen`, square naming) is not part
of the repository's sources, so it is modelled from the specification's
board-state-machine contract.  The short-move routine (`board.san`)
and the random-token service (`ShortUUID().random`) are external
collaborators and are passed in as parameters.
-/

namespace Pgn2Json

/-- Piece color. -/
inductive Color where
  | white
  | black
deriving DecidableEq, Repr, BEq

/-- Piece kind. -/
inductive PieceKind where
  | pawn
  | knight
  | bishop
  | rook
  | queen
  | king
deriving DecidableEq, Repr, BEq

/-- A (kind, color) pair, as in the data model. -/
structure Piece where
  kind : PieceKind
  color : Color
deriving DecidableEq, Repr, BEq

/-- A move: origin square index, destination square index, optional
promotion kind.  Squares are indexed as in the source's board library:
square = 8 * rank + file, a1 = 0, h8 = 63. -/
structure Move where
  from_square : Nat
  to_square : Nat
  promotion : Option PieceKind := none
deriving DecidableEq, Repr, BEq

/-- Modelled from the spec: a Position snapshot — board contents,
side to move, the four castling-rights booleans, optional en-passant
target square, halfmove clock and fullmove number (spec section 3). -/
structure Board where
  pieceAt : Nat → Option Piece
  turn : Color
  castlingWK : Bool
  castlingWQ : Bool
  castlingBK : Bool
  castlingBQ : Bool
  epSquare : Option Nat
  halfmove : Nat
  fullmove : Nat

/-- The opposite color. -/
def Color.other : Color → Color
  | .white => .black
  | .black => .white

/-- Modelled from the spec: the standard two-character square name,
file letter then rank digit, from the square index. -/
def square_name (s : Nat) : String :=
  String.mk [Char.ofNat (97 + s % 8), Char.ofNat (49 + s / 8)]

/-- The lowercase single-letter code of a piece kind.  This is what the
source's `piece.symbol().lower()` evaluates to. -/
def kindLetter : PieceKind → String
  | .pawn => "p"
  | .knight => "n"
  | .bishop => "b"
  | .rook => "r"
  | .queen => "q"
  | .king => "k"

/-- Modelled from the spec: long (coordinate) move text — origin name,
destination name, then the promotion letter when promoting.  This is the
source's `move.uci()`. -/
def uci (m : Move) : String :=
  square_name m.from_square ++ square_name m.to_square ++
    (match m.promotion with
     | some k => kindLetter k
     | none => "")

/-- Modelled from the spec: current-position piece lookup
(`board.piece_at`). -/
def piece_at (b : Board) (s : Nat) : Option Piece :=
  b.pieceAt s

/-- Modelled from the spec: kind of the piece on a square
(`board.piece_type_at`). -/
def piece_type_at (b : Board) (s : Nat) : Option PieceKind :=
  (b.pieceAt s).map Piece.kind

/-- Modelled from the spec: en-passant test — the moving piece is a pawn,
the destination equals the current en-passant target, and the destination
square is unoccupied (`board.is_en_passant`). -/
def is_en_passant (b : Board) (m : Move) : Bool :=
  piece_type_at b m.from_square == some PieceKind.pawn &&
  b.epSquare == some m.to_square &&
  piece_at b m.to_square == none

/-- Modelled from the spec: capture test — the destination square is
occupied by an opposing piece, or the move is an en-passant capture
(`board.is_capture`). -/
def is_capture (b : Board) (m : Move) : Bool :=
  (match piece_at b m.to_square with
   | some p => p.color != b.turn
   | none => false) || is_en_passant b m

/-- Modelled from the spec: kingside-castling test — the moving piece is a
king and the destination is the two-file kingside castling destination
(`board.is_kingside_castling`). -/
def is_kingside_castling (b : Board) (m : Move) : Bool :=
  match piece_at b m.from_square with
  | some p => p.kind == PieceKind.king && m.to_square == m.from_square + 2
  | none => false

/-- Modelled from the spec: queenside-castling test — the moving piece is a
king and the destination is the two-file queenside castling destination
(`board.is_queenside_castling`). -/
def is_queenside_castling (b : Board) (m : Move) : Bool :=
  match piece_at b m.from_square with
  | some p => p.kind == PieceKind.king && m.to_square + 2 == m.from_square
  | none => false

/-- Absolute difference of two square indices, as the source's
`abs(move.from_square - move.to_square)` over Python integers. -/
def absDiff (a b : Nat) : Nat :=
  Int.natAbs ((a : Int) - (b : Int))

/-- The square of the pawn removed by an en-passant capture: one rank
behind the destination from the mover's point of view. -/
def epVictimSquare (turn : Color) (to_sq : Nat) : Nat :=
  match turn with
  | .white => to_sq - 8
  | .black => to_sq + 8

/-- Modelled from the spec: `apply`/`push` — produce the successor
Position: move the piece, remove a captured piece (including the pawn one
rank behind the destination on en-passant), relocate the rook on castling,
promote on promotion, update castling rights (lost once a king or its rook
moves or that rook is captured), set or clear the en-passant target (set
only after a two-square pawn push, to the square passed over), flip the
side to move, update the halfmove clock and fullmove number.  The source
checks for an empty origin before pushing, so the empty-origin case is
never reached by the pipeline; here it leaves the position unchanged. -/
def push (b : Board) (m : Move) : Board :=
  match piece_at b m.from_square with
  | none => b
  | some p =>
    let isEp := is_en_passant b m
    let isCap := is_capture b m
    let isPawn := p.kind == PieceKind.pawn
    let newKind := match m.promotion with
      | some k => k
      | none => p.kind
    let victim := epVictimSquare b.turn m.to_square
    let f1 : Nat → Option Piece := fun s =>
      if s == m.from_square then none
      else if s == m.to_square then some ⟨newKind, p.color⟩
      else if isEp && s == victim then none
      else piece_at b s
    let f2 : Nat → Option Piece :=
      if is_kingside_castling b m then
        fun s =>
          if s == m.from_square + 3 then none
          else if s == m.from_square + 1 then some ⟨PieceKind.rook, p.color⟩
          else f1 s
      else if is_queenside_castling b m then
        fun s =>
          if s == m.from_square - 4 then none
          else if s == m.from_square - 1 then some ⟨PieceKind.rook, p.color⟩
          else f1 s
      else f1
    let isWhiteKing := p.kind == PieceKind.king && p.color == Color.white
    let isBlackKing := p.kind == PieceKind.king && p.color == Color.black
    { pieceAt := f2
      turn := b.turn.other
      castlingWK := b.castlingWK && !isWhiteKing &&
        m.from_square != 7 && m.to_square != 7
      castlingWQ := b.castlingWQ && !isWhiteKing &&
        m.from_square != 0 && m.to_square != 0
      castlingBK := b.castlingBK && !isBlackKing &&
        m.from_square != 63 && m.to_square != 63
      castlingBQ := b.castlingBQ && !isBlackKing &&
        m.from_square != 56 && m.to_square != 56
      epSquare :=
        if isPawn && absDiff m.from_square m.to_square == 16 then
          some ((m.from_square + m.to_square) / 2)
        else none
      halfmove := if isPawn || isCap then 0 else b.halfmove + 1
      fullmove := if b.turn == Color.black then b.fullmove + 1 else b.fullmove }

/-- The one-character symbol of a piece in the position encoding:
uppercase for white, lowercase for black. -/
def pieceChar (p : Piece) : Char :=
  let lower := match p.kind with
    | .pawn => 'p'
    | .knight => 'n'
    | .bishop => 'b'
    | .rook => 'r'
    | .queen => 'q'
    | .king => 'k'
  match p.color with
  | .white => lower.toUpper
  | .black => lower

/-- Modelled from the spec: one rank of the position encoding — alternating
piece letters and run-length counts of empty squares, files a through h. -/
def rankFen (b : Board) (r : Nat) : String :=
  let step := fun (acc : String × Nat) (f : Nat) =>
    match piece_at b (8 * r + f) with
    | some p =>
        (acc.1 ++ (if acc.2 == 0 then "" else toString acc.2) ++
          (pieceChar p).toString, 0)
    | none => (acc.1, acc.2 + 1)
  let res := [0, 1, 2, 3, 4, 5, 6, 7].foldl step ("", 0)
  res.1 ++ (if res.2 == 0 then "" else toString res.2)

/-- Modelled from the spec: the full single-line textual position encoding
(`board.fen()`): board contents rank-by-rank from the farthest rank to the
nearest, side to move, castling rights, en-passant target or a dash,
halfmove clock, fullmove number, space-separated. -/
def fen (b : Board) : String :=
  let boardPart := String.intercalate "/" ([7, 6, 5, 4, 3, 2, 1, 0].map (rankFen b))
  let turnPart := match b.turn with
    | .white => "w"
    | .black => "b"
  let castlePart :=
    let s := (if b.castlingWK then "K" else "") ++ (if b.castlingWQ then "Q" else "") ++
             (if b.castlingBK then "k" else "") ++ (if b.castlingBQ then "q" else "")
    if s == "" then "-" else s
  let epPart := match b.epSquare with
    | some s => square_name s
    | none => "-"
  boardPart ++ " " ++ turnPart ++ " " ++ castlePart ++ " " ++ epPart ++ " " ++
    toString b.halfmove ++ " " ++ toString b.fullmove

/-- The flag table, as in the source's dictionary mapping move types to
their one-character flag codes
(`Constants.POSITION_FLAGS` in `src/source/pgn2json/config/constants.py`,
repeated as `POS_FLAGS` in `src/pgn2json.py`). -/
structure PositionFlags where
  normal : String
  capture : String
  en_passant : String
  kingside_castling : String
  queenside_castling : String
  pawn_push_double : String
  promotion : String
deriving DecidableEq, Repr

/-- The standard flag table of `Constants.POSITION_FLAGS`. -/
def POSITION_FLAGS : PositionFlags :=
  { normal := "n"
    capture := "c"
    en_passant := "e"
    kingside_castling := "k"
    queenside_castling := "q"
    pawn_push_double := "b"
    promotion := "p" }

/-- Translated from `PGNConverter._determine_flags`
(`src/source/pgn2json/computation/pgn_conversion.py`, lines 233-269):
capture (with the en-passant sub-case), kingside castling, queenside
castling, pawn double push (pawn moving with absolute square-index
difference 16), promotion, normal — returning at the first match. -/
def determine_flags (pf : PositionFlags) (board : Board) (move : Move) : String :=
  if is_capture board move then
    if is_en_passant board move then pf.en_passant else pf.capture
  else if is_kingside_castling board move then pf.kingside_castling
  else if is_queenside_castling board move then pf.queenside_castling
  else if piece_type_at board move.from_square == some PieceKind.pawn &&
          absDiff move.from_square move.to_square == 16 then
    pf.pawn_push_double
  else if move.promotion.isSome then pf.promotion
  else pf.normal

/-- Translated from `PGNConverter._extract_comment` (lines 98-123): the
mainline of the game tree is a list of (move, comment-text) nodes; walk it,
and at the first node whose move equals the requested move return its
comment with newlines replaced by spaces, or none when that comment is the
empty string; return none when no node matches. -/
def extract_comment : List (Move × String) → Move → Option String
  | [], _ => none
  | (mv, c) :: rest, move =>
    if mv == move then
      if c == "" then none else some (c.replace "\n" " ")
    else extract_comment rest move

/-- The externally emitted per-move record, with the fields of the JSON
dictionary built by `_generate_move_info`.  `fromSq`/`toSq` are the
square-name strings stored under the "from"/"to" keys.  For the
conditionally present keys, the outer `Option` is key presence:
`captured = none` means the "captured" key is absent, and
`captured = some v` means the key is present with value `v`
(`v = none` is JSON null).  `comment` holds the text of the nested
rich-text document, or none when the "comment" value is null. -/
structure MoveRecord where
  color : String
  piece : String
  fromSq : String
  toSq : String
  san : String
  flags : String
  lan : String
  before : String
  after : String
  moveId : String
  variants : List String
  shapes : List String
  comment : Option String
  captured : Option (Option String) := none
  promotion : Option String := none
deriving DecidableEq, Repr, Inhabited

/-- Translated from `PGNConverter._generate_move_info` (lines 161-231):
fails when no piece sits on the origin square; otherwise builds the record,
with `color` computed from the (pre-push) side to move by the source's
formula, `captured` added only when the flag string contains the character
c, and `promotion` (the last character of the coordinate notation) added
only when the flag string contains the character p (the source's substring
tests have one-character needles, so they are character membership).
`sanOf` stands for the external short-notation routine and `token` for the
generated move id. -/
def generate_move_info (sanOf : Board → Move → String)
    (mainline : List (Move × String)) (board : Board) (move : Move)
    (flags : String) (before_fen after_fen : String) (token : String) :
    Except String MoveRecord :=
  match piece_at board move.from_square with
  | none =>
    Except.error ("No piece found at " ++ square_name move.from_square ++
      " for move " ++ uci move ++ ".")
  | some piece_moved_obj =>
    let base : MoveRecord :=
      { color := if board.turn == Color.black then "w" else "b"
        piece := kindLetter piece_moved_obj.kind
        fromSq := square_name move.from_square
        toSq := square_name move.to_square
        san := sanOf board move
        flags := flags
        lan := uci move
        before := before_fen
        after := after_fen
        moveId := token
        variants := []
        shapes := []
        comment := extract_comment mainline move }
    let withCaptured : MoveRecord :=
      if flags.data.contains 'c' then
        { base with
            captured := some (if is_en_passant board move then some "p"
              else (piece_at board move.to_square).map (fun p => kindLetter p.kind)) }
      else base
    let withPromo : MoveRecord :=
      if flags.data.contains 'p' then
        { withCaptured with promotion := some (uci move).back.toString }
      else withCaptured
    Except.ok withPromo

/-- One parsed input game: the header fields the converter reads, the
starting position, and the mainline as a list of (move, comment) nodes. -/
structure GameInput where
  white : String
  black : String
  whiteElo : String
  blackElo : String
  link : String
  start : Board
  mainline : List (Move × String)

/-- The mainline move sequence of a game. -/
def mainMoves (g : GameInput) : List Move :=
  g.mainline.map Prod.fst

/-- The output document: schema version tag, header title, and the ordered
move-record list. -/
structure Document where
  version : String
  title : String
  moves : List MoveRecord
deriving DecidableEq, Repr, Inhabited

/-- Translated from `convert_to_json` (lines 319-323): the title built by
three adjacent formatted fragments — note the fragments concatenate with no
space between the closing parenthesis and "VS". -/
def titleOf (g : GameInput) : String :=
  g.white ++ " (White, " ++ g.whiteElo ++ ")" ++ "VS " ++
    g.black ++ " (Black, " ++ g.blackElo ++ ")"

/-- Translated from `src/pgn2json.py` line 29: the older script's title
string, which has the space before "VS". -/
def script_title (g : GameInput) : String :=
  g.white ++ " (White, " ++ g.whiteElo ++ ") VS " ++
    g.black ++ " (Black, " ++ g.blackElo ++ ")"

/-- Translated from `src/pgn2json.py` lines 69-75: the older script pushes
the move first and then computes the mover's color from the post-push side
to move. -/
def script_color (board : Board) (move : Move) : String :=
  if (push board move).turn == Color.white then "b" else "w"

/-- Translated from the move loop of `convert_to_json` (lines 328-341):
for each mainline move, record the position encoding before the move,
classify the move, build its record (with an empty placeholder for the
after encoding), push the move, fill in the after encoding, and accumulate;
the first failure aborts the whole conversion.  `tokens k` models the k-th
token drawn from the random-identifier service. -/
def convertMoves (pf : PositionFlags) (sanOf : Board → Move → String)
    (tokens : Nat → String) (ml : List (Move × String)) :
    Board → List Move → Nat → Except String (List MoveRecord)
  | _, [], _ => Except.ok []
  | board, move :: rest, k =>
    match generate_move_info sanOf ml board move (determine_flags pf board move)
        (fen board) "" (tokens k) with
    | Except.error e => Except.error e
    | Except.ok info =>
      match convertMoves pf sanOf tokens ml (push board move) rest (k + 1) with
      | Except.error e => Except.error e
      | Except.ok rs => Except.ok ({ info with after := fen (push board move) } :: rs)

/-- Translated from `PGNConverter.convert_to_json` (lines 298-349): build
the header title, convert the mainline, and on success return the document
together with the freshly drawn file token (the artifact is written, under
that token's name, only in this success case). -/
def convert_to_json (pf : PositionFlags) (sanOf : Board → Move → String)
    (tokens : Nat → String) (g : GameInput) :
    Except String (Document × String) :=
  match convertMoves pf sanOf tokens g.mainline g.start (mainMoves g) 0 with
  | Except.error e => Except.error e
  | Except.ok records =>
    Except.ok ({ version := "0.0.1", title := titleOf g, moves := records },
      tokens (mainMoves g).length)

/-- Whether an `Except` result is a success. -/
def exceptIsOk : Except String (Document × String) → Bool
  | Except.ok _ => true
  | Except.error _ => false

/-- The document of a successful conversion (the default document on
failure). -/
def docOf (r : Except String (Document × String)) : Document :=
  match r with
  | Except.ok (d, _) => d
  | Except.error _ => default

/-- The file token of a successful conversion (empty on failure). -/
def fnOf (r : Except String (Document × String)) : String :=
  match r with
  | Except.ok (_, f) => f
  | Except.error _ => ""

/-- The back-rank piece arrangement of the standard starting position. -/
def backRank : Nat → PieceKind
  | 0 => .rook
  | 1 => .knight
  | 2 => .bishop
  | 3 => .queen
  | 4 => .king
  | 5 => .bishop
  | 6 => .knight
  | _ => .rook

/-- Piece placement of the standard starting position. -/
def startPieceAt (s : Nat) : Option Piece :=
  if s < 8 then some ⟨backRank s, .white⟩
  else if s < 16 then some ⟨.pawn, .white⟩
  else if 48 ≤ s && s < 56 then some ⟨.pawn, .black⟩
  else if 56 ≤ s && s < 64 then some ⟨backRank (s - 56), .black⟩
  else none

/-- The standard starting position. -/
def startBoard : Board :=
  { pieceAt := startPieceAt
    turn := .white
    castlingWK := true
    castlingWQ := true
    castlingBK := true
    castlingBQ := true
    epSquare := none
    halfmove := 0
    fullmove := 1 }

/-- A fixed stand-in for the external short-notation routine; no claim
depends on the text it produces. -/
def sanX : Board → Move → String :=
  fun _ _ => "san"

/-- A fixed stand-in token stream for the random-identifier service. -/
def tokX : Nat → String :=
  fun k => "tok" ++ toString k

/-- The move e2-e4 (squares 12 to 28). -/
def mE2E4 : Move := ⟨12, 28, none⟩

/-- A game whose mainline is the single move e2-e4 from the standard
starting position. -/
def gE2E4 : GameInput :=
  { white := "A", black := "B", whiteElo := "1", blackElo := "2",
    link := "L", start := startBoard, mainline := [(mE2E4, "")] }

/-- The conversion of `gE2E4`. -/
def runE2E4 : Except String (Document × String) :=
  convert_to_json POSITION_FLAGS sanX tokX gE2E4

/-- A position where white can capture en passant: white pawn on e5
(square 36), black pawn on d5 (square 35) that has just pushed two squares,
kings on e1 and e8, white to move, en-passant target d6 (square 43). -/
def epBoard : Board :=
  { pieceAt := fun s =>
      if s == 36 then some ⟨.pawn, .white⟩
      else if s == 35 then some ⟨.pawn, .black⟩
      else if s == 4 then some ⟨.king, .white⟩
      else if s == 60 then some ⟨.king, .black⟩
      else none
    turn := .white
    castlingWK := false
    castlingWQ := false
    castlingBK := false
    castlingBQ := false
    epSquare := some 43
    halfmove := 0
    fullmove := 3 }

/-- The en-passant capture e5xd6 (squares 36 to 43). -/
def mEp : Move := ⟨36, 43, none⟩

/-- A game whose mainline is the single en-passant capture from
`epBoard`. -/
def gEp : GameInput :=
  { white := "A", black := "B", whiteElo := "1", blackElo := "2",
    link := "L", start := epBoard, mainline := [(mEp, "")] }

/-- The conversion of `gEp`. -/
def runEp : Except String (Document × String) :=
  convert_to_json POSITION_FLAGS sanX tokX gEp

/-- A position with a capturing promotion available: white pawn on b7
(square 49), black rook on a8 (square 56), kings on e1 and e8, white to
move. -/
def promoBoard : Board :=
  { pieceAt := fun s =>
      if s == 49 then some ⟨.pawn, .white⟩
      else if s == 56 then some ⟨.rook, .black⟩
      else if s == 4 then some ⟨.king, .white⟩
      else if s == 60 then some ⟨.king, .black⟩
      else none
    turn := .white
    castlingWK := false
    castlingWQ := false
    castlingBK := false
    castlingBQ := false
    epSquare := none
    halfmove := 0
    fullmove := 20 }

/-- The capturing promotion b7xa8=Q (squares 49 to 56, promoting to
queen). -/
def mPromo : Move := ⟨49, 56, some .queen⟩

/-- A game whose mainline is the single capturing promotion from
`promoBoard`. -/
def gPromo : GameInput :=
  { white := "A", black := "B", whiteElo := "1", blackElo := "2",
    link := "L", start := promoBoard, mainline := [(mPromo, "")] }

/-- The conversion of `gPromo`. -/
def runPromo : Except String (Document × String) :=
  convert_to_json POSITION_FLAGS sanX tokX gPromo

/-- A game with an empty mainline, used to inspect the header title. -/
def gHdr : GameInput :=
  { white := "A", black := "B", whiteElo := "1", blackElo := "2",
    link := "L", start := startBoard, mainline := [] }

/-- A two-move game: e2-e4 then e7-e5 (squares 52 to 36). -/
def gTwo : GameInput :=
  { white := "A", black := "B", whiteElo := "1", blackElo := "2",
    link := "L", start := startBoard,
    mainline := [(mE2E4, ""), (⟨52, 36, none⟩, "")] }

/-- The conversion of `gTwo`. -/
def runTwo : Except String (Document × String) :=
  convert_to_json POSITION_FLAGS sanX tokX gTwo

/-- The move e3-e4 (squares 20 to 28); square e3 is empty in the standard
starting position. -/
def mBad : Move := ⟨20, 28, none⟩

/-- A game whose single mainline move starts from an empty square. -/
def gBad : GameInput :=
  { white := "A", black := "B", whiteElo := "1", blackElo := "2",
    link := "L", start := startBoard, mainline := [(mBad, "")] }

/-- The move e2-e3 (squares 12 to 20), a quiet pawn move. -/
def mQuiet : Move := ⟨12, 20, none⟩

/-- `_generate_move_info` invoked directly with the plain-capture flag on a
quiet move whose destination square is empty. -/
def runCapEmpty : Except String MoveRecord :=
  generate_move_info sanX [] startBoard mQuiet "c" "BF" "AF" "T"

/-- The record produced by `runCapEmpty` (the default record if it had
failed). -/
def recCapEmpty : MoveRecord :=
  match runCapEmpty with
  | Except.ok r => r
  | Except.error _ => default

/-- A constant token stream, modelling the identifier service's draws in
one run. -/
def tokA : Nat → String :=
  fun _ => "AAAA"

/-- A different constant token stream, modelling the identifier service's
draws in a second run of the same input. -/
def tokB : Nat → String :=
  fun _ => "BBBB"

/-- Conversion of `gE2E4` with the first run's tokens. -/
def runTokA : Except String (Document × String) :=
  convert_to_json POSITION_FLAGS sanX tokA gE2E4

/-- Conversion of `gE2E4` with the second run's tokens. -/
def runTokB : Except String (Document × String) :=
  convert_to_json POSITION_FLAGS sanX tokB gE2E4

/-- The first record of the converted one-move game `gE2E4`. -/
def recE2E4 : MoveRecord :=
  (docOf runE2E4).moves.headD default

/-- The "captured" key of a record-building result: none when building
failed, otherwise the (optional) value stored under the key. -/
def capturedOf (e : Except String MoveRecord) : Option (Option (Option String)) :=
  match e with
  | Except.ok r => some r.captured
  | Except.error _ => none

/-- A record with its move token blanked, for comparing conversion output
up to the randomly drawn identifiers. -/
def eraseId (r : MoveRecord) : MoveRecord :=
  { r with moveId := "" }

/-- The position reached from a start position by a list of moves. -/
def boardAfter (b : Board) (ms : List Move) : Board :=
  ms.foldl push b

/-- The error message `_generate_move_info` raises for a move whose origin
square is empty. -/
def missingPieceMsg (m : Move) : String :=
  "No piece found at " ++ square_name m.from_square ++ " for move " ++ uci m ++ "."

/-- First-match evaluation of an ordered list of (condition, flag) pairs,
falling through to a default flag. -/
def firstFlag : List (Bool × String) → String → String
  | [], d => d
  | (c, f) :: rest, d => if c then f else firstFlag rest d

/-- Modelled from the spec: the classifier contract of section 4.2 —
evaluate, in this exact priority order and stopping at the first match:
capture (with the en-passant sub-case), kingside castle, queenside castle,
double pawn push (pawn with absolute square-index difference 16), then
promotion if the move carries a promotion kind, else normal. -/
def classifySpec (pf : PositionFlags) (board : Board) (move : Move) : String :=
  firstFlag
    [ (is_capture board move,
        if is_en_passant board move then pf.en_passant else pf.capture),
      (is_kingside_castling board move, pf.kingside_castling),
      (is_queenside_castling board move, pf.queenside_castling),
      (piece_type_at board move.from_square == some PieceKind.pawn &&
        absDiff move.from_square move.to_square == 16, pf.pawn_push_double),
      (move.promotion.isSome, pf.promotion) ]
    pf.normal

/-- C1: the claim says every emitted record's color equals the side that
just moved ("w" for a white move).  The converter computes the color before
pushing the move, with the post-push formula, so on the very first move
e2-e4 of a game — a white move (the starting position has white to move) —
the emitted color is "b".  The older script, which pushes first, yields
"w" on the same move, matching the claim. -/
theorem C1_color_inverted_on_e2e4 :
    startBoard.turn = Color.white ∧
    (docOf runE2E4).moves.map MoveRecord.color = ["b"] ∧
    script_color startBoard mE2E4 = "w" :=
  ⟨rfl, rfl, rfl⟩

/-- C2: the claim says every en-passant capture record carries
captured = "p".  The en-passant flag is "e", and the converter adds the
"captured" key only when the flag string contains the character c, so the
emitted en-passant record has no "captured" key at all: on the en-passant
capture e5xd6 the record's flag is "e" and its captured field is absent. -/
theorem C2_en_passant_captured_missing :
    is_en_passant epBoard mEp = true ∧
    (docOf runEp).moves.map MoveRecord.flags = ["e"] ∧
    (docOf runEp).moves.map MoveRecord.captured = [none] :=
  ⟨rfl, rfl, rfl⟩

/-- C3: the claim says every move carrying a promotion kind yields a record
with the promotion field, regardless of whether the flag is "capture" or
"promotion".  The classifier gives a capturing promotion the flag "c", and
the converter adds the "promotion" key only when the flag string contains
the character p, so the capturing promotion b7xa8=Q is emitted with flag
"c" and no promotion field. -/
theorem C3_capturing_promotion_field_missing :
    mPromo.promotion = some PieceKind.queen ∧
    (docOf runPromo).moves.map MoveRecord.flags = ["c"] ∧
    (docOf runPromo).moves.map MoveRecord.promotion = [none] :=
  ⟨rfl, rfl, rfl⟩

/-- C4: the flag classifier evaluates its conditions in the exact priority
order capture (with en-passant distinguished), kingside castle, queenside
castle, double pawn push, promotion, normal, returning at the first match:
it coincides with the first-match spec classifier, and in particular every
capture — a capturing promotion included — receives the capture (or
en-passant) flag, never the double-pawn-push or promotion flag. -/
theorem C4_flag_priority (pf : PositionFlags) (board : Board) (move : Move) :
    determine_flags pf board move = classifySpec pf board move ∧
    (is_capture board move = true →
      determine_flags pf board move =
        if is_en_passant board move then pf.en_passant else pf.capture) := by
  refine ⟨rfl, fun h => ?_⟩
  simp [determine_flags, h]

/-- Witness for C4 at the capturing promotion b7xa8=Q from `promoBoard`. -/
theorem C4_flag_priority_witness :
    determine_flags POSITION_FLAGS promoBoard mPromo =
      classifySpec POSITION_FLAGS promoBoard mPromo ∧
    determine_flags POSITION_FLAGS promoBoard mPromo =
      if is_en_passant promoBoard mPromo then POSITION_FLAGS.en_passant
      else POSITION_FLAGS.capture :=
  ⟨(C4_flag_priority POSITION_FLAGS promoBoard mPromo).1,
   (C4_flag_priority POSITION_FLAGS promoBoard mPromo).2 rfl⟩

/-- C5: the claim says the title is exactly
"A (White, 1) VS B (Black, 2)" for these headers, with spaces around VS.
The converter's three adjacent formatted fragments concatenate with no
space before VS, producing "A (White, 1)VS B (Black, 2)"; the older
script's single format string does produce the spaced form. -/
theorem C5_title_missing_space :
    (docOf (convert_to_json POSITION_FLAGS sanX tokX gHdr)).title =
      "A (White, 1)VS B (Black, 2)" ∧
    titleOf gHdr ≠ "A (White, 1) VS B (Black, 2)" ∧
    script_title gHdr = "A (White, 1) VS B (Black, 2)" := by
  refine ⟨rfl, ?_, rfl⟩
  decide

/-- C8 counterexample: invoked with the plain-capture flag "c" on the move
e2-e3 whose destination e3 is empty (and which is not en-passant), the
record builder does not fail: it returns a record whose "captured" key is
present with the null value. -/
theorem C8_counterexample :
    runCapEmpty = Except.ok recCapEmpty ∧
    recCapEmpty.flags = "c" ∧
    recCapEmpty.captured = some none ∧
    piece_at startBoard mQuiet.to_square = none ∧
    is_en_passant startBoard mQuiet = false :=
  ⟨rfl, rfl, rfl, rfl, rfl⟩

/-- C8 amended: for every record built with a flag string containing the
character c, for a non-en-passant move whose origin square is occupied and
whose destination square is empty, the builder succeeds and the record's
"captured" key is present with the null value (no error is raised). -/
theorem C8_plain_capture_empty_dest (sanOf : Board → Move → String)
    (ml : List (Move × String)) (b : Board) (m : Move)
    (flags bf af tok : String) (p : Piece)
    (hfrom : piece_at b m.from_square = some p)
    (hc : flags.data.contains 'c' = true)
    (hep : is_en_passant b m = false)
    (hto : piece_at b m.to_square = none) :
    capturedOf (generate_move_info sanOf ml b m flags bf af tok) =
      some (some none) := by
  have hc' : 'c' ∈ flags.data := by simpa using hc
  unfold capturedOf generate_move_info
  rw [hfrom]
  by_cases hp : 'p' ∈ flags.data <;> simp [hc', hep, hto, hp]

/-- Witness for C8's amended statement at the concrete inputs of
`runCapEmpty`. -/
theorem C8_plain_capture_empty_dest_witness :
    piece_at startBoard mQuiet.from_square =
      some ⟨PieceKind.pawn, Color.white⟩ ∧
    "c".data.contains 'c' = true ∧
    is_en_passant startBoard mQuiet = false ∧
    piece_at startBoard mQuiet.to_square = none ∧
    capturedOf (generate_move_info sanX [] startBoard mQuiet "c" "BF" "AF" "T") =
      some (some none) :=
  ⟨rfl, rfl, rfl, rfl,
    C8_plain_capture_empty_dest sanX [] startBoard mQuiet "c" "BF" "AF" "T"
      ⟨PieceKind.pawn, Color.white⟩ rfl rfl rfl rfl⟩

/-- C9 counterexample: two runs of the converter on the same one-move game,
differing only in the tokens drawn from the random-identifier service,
produce different moveId fields, different artifact filenames and hence
unequal documents — so two runs are not identical in all fields. -/
theorem C9_counterexample :
    (docOf runTokA).moves.map MoveRecord.moveId = ["AAAA"] ∧
    (docOf runTokB).moves.map MoveRecord.moveId = ["BBBB"] ∧
    fnOf runTokA = "AAAA" ∧ fnOf runTokB = "BBBB" ∧
    docOf runTokA ≠ docOf runTokB := by
  refine ⟨rfl, rfl, rfl, rfl, fun h => ?_⟩
  have h2 := congrArg (fun d => d.moves.map MoveRecord.moveId) h
  simp only at h2
  rw [show (docOf runTokA).moves.map MoveRecord.moveId = ["AAAA"] from rfl,
    show (docOf runTokB).moves.map MoveRecord.moveId = ["BBBB"] from rfl] at h2
  exact absurd h2 (by decide)

/-- Successful record building copies the given before/after encodings and
flag string into the record, and the conditional keys are present exactly
when the flag string contains the corresponding character. -/
theorem generate_move_info_fields (sanOf : Board → Move → String)
    (ml : List (Move × String)) (b : Board) (m : Move)
    (flags bf af tok : String) (r : MoveRecord)
    (h : generate_move_info sanOf ml b m flags bf af tok = Except.ok r) :
    r.before = bf ∧ r.after = af ∧ r.flags = flags ∧
    r.captured.isSome = flags.data.contains 'c' ∧
    r.promotion.isSome = flags.data.contains 'p' := by
  cases hfrom : piece_at b m.from_square with
  | none => simp [generate_move_info, hfrom] at h
  | some p =>
    simp only [generate_move_info, hfrom, Except.ok.injEq] at h
    subst h
    by_cases hcf : 'c' ∈ flags.data <;> by_cases hpf : 'p' ∈ flags.data <;>
      simp [hcf, hpf]

/-- Record building succeeds whenever the origin square is occupied. -/
theorem generate_move_info_ok_of_piece (sanOf : Board → Move → String)
    (ml : List (Move × String)) (b : Board) (m : Move)
    (flags bf af tok : String) (p : Piece)
    (hfrom : piece_at b m.from_square = some p) :
    ∃ r, generate_move_info sanOf ml b m flags bf af tok = Except.ok r := by
  unfold generate_move_info
  rw [hfrom]
  exact ⟨_, rfl⟩

/-- Record building fails with the missing-piece message whenever the
origin square is empty. -/
theorem generate_move_info_error_of_empty (sanOf : Board → Move → String)
    (ml : List (Move × String)) (b : Board) (m : Move)
    (flags bf af tok : String)
    (hfrom : piece_at b m.from_square = none) :
    generate_move_info sanOf ml b m flags bf af tok =
      Except.error (missingPieceMsg m) := by
  unfold generate_move_info missingPieceMsg
  rw [hfrom]

/-- A successful record list opens with a record whose before encoding is
the encoding of the entry position, and consecutive records agree
after-to-before. -/
theorem convertMoves_before_chain (pf : PositionFlags)
    (sanOf : Board → Move → String) (tokens : Nat → String)
    (ml : List (Move × String)) :
    ∀ (ms : List Move) (b : Board) (k : Nat) (rs : List MoveRecord),
      convertMoves pf sanOf tokens ml b ms k = Except.ok rs →
      (∀ r, rs.head? = some r → r.before = fen b) ∧
      rs.Chain' (fun a c => a.after = c.before) := by
  intro ms
  induction ms with
  | nil =>
    intro b k rs h
    simp only [convertMoves, Except.ok.injEq] at h
    subst h
    exact ⟨by simp, List.chain'_nil⟩
  | cons mv rest ih =>
    intro b k rs h
    simp only [convertMoves] at h
    cases hgen : generate_move_info sanOf ml b mv (determine_flags pf b mv)
        (fen b) "" (tokens k) with
    | error e => rw [hgen] at h; cases h
    | ok info =>
      rw [hgen] at h
      cases hrec : convertMoves pf sanOf tokens ml (push b mv) rest (k + 1) with
      | error e => rw [hrec] at h; cases h
      | ok rs' =>
        rw [hrec] at h
        simp only [Except.ok.injEq] at h
        subst h
        have hb := (generate_move_info_fields sanOf ml b mv
          (determine_flags pf b mv) (fen b) "" (tokens k) info hgen).1
        have ihr := ih (push b mv) (k + 1) rs' hrec
        constructor
        · intro r hr
          simp only [List.head?_cons, Option.some.injEq] at hr
          subst hr
          exact hb
        · rw [List.chain'_cons']
          refine ⟨fun y hy => ?_, ihr.2⟩
          cases rs' with
          | nil => simp at hy
          | cons r0 rs'' =>
            simp only [List.head?_cons, Option.mem_def, Option.some.injEq] at hy
            subst hy
            exact (ihr.1 r0 rfl).symm

/-- C6: for every converted game, the after position encoding of each
record equals the before position encoding of the next record, for every
pair of consecutive records of the output moves list. -/
theorem C6_after_eq_next_before (pf : PositionFlags)
    (sanOf : Board → Move → String) (tokens : Nat → String) (g : GameInput)
    (doc : Document) (fileToken : String)
    (h : convert_to_json pf sanOf tokens g = Except.ok (doc, fileToken)) :
    doc.moves.Chain' (fun a c => a.after = c.before) := by
  unfold convert_to_json at h
  cases hc : convertMoves pf sanOf tokens g.mainline g.start (mainMoves g) 0 with
  | error e => rw [hc] at h; cases h
  | ok rs =>
    rw [hc] at h
    simp only [Except.ok.injEq, Prod.mk.injEq] at h
    obtain ⟨h3, -⟩ := h
    rw [← h3]
    exact (convertMoves_before_chain pf sanOf tokens g.mainline
      (mainMoves g) g.start 0 rs hc).2

/-- Witness for C6 on the two-move game e2-e4, e7-e5. -/
theorem C6_after_eq_next_before_witness :
    (docOf runTwo).moves.Chain' (fun a c => a.after = c.before) :=
  C6_after_eq_next_before POSITION_FLAGS sanX tokX gTwo
    (docOf runTwo) (fnOf runTwo) rfl

/-- When the moves before index j all start from occupied squares and the
move at index j starts from an empty square, the conversion loop stops with
the missing-piece error for the move at index j. -/
theorem convertMoves_error_at (pf : PositionFlags)
    (sanOf : Board → Move → String) (tokens : Nat → String)
    (ml : List (Move × String)) :
    ∀ (ms : List Move) (b : Board) (k j : Nat) (hj : j < ms.length),
      (∀ i (hi : i < ms.length), i < j →
        piece_at (boardAfter b (ms.take i)) (ms.get ⟨i, hi⟩).from_square ≠ none) →
      piece_at (boardAfter b (ms.take j)) (ms.get ⟨j, hj⟩).from_square = none →
      convertMoves pf sanOf tokens ml b ms k =
        Except.error (missingPieceMsg (ms.get ⟨j, hj⟩)) := by
  intro ms
  induction ms with
  | nil => intro b k j hj; exact absurd hj (Nat.not_lt_zero j)
  | cons mv rest ih =>
    intro b k j hj hprev hempty
    cases j with
    | zero =>
      have he : piece_at b mv.from_square = none := hempty
      simp only [convertMoves]
      rw [generate_move_info_error_of_empty sanOf ml b mv
        (determine_flags pf b mv) (fen b) "" (tokens k) he]
      rfl
    | succ j' =>
      have hj' : j' < rest.length := Nat.lt_of_succ_lt_succ hj
      have h0 : piece_at b mv.from_square ≠ none :=
        hprev 0 (Nat.succ_pos _) (Nat.succ_pos _)
      obtain ⟨p, hp⟩ : ∃ p, piece_at b mv.from_square = some p := by
        cases hq : piece_at b mv.from_square with
        | none => exact absurd hq h0
        | some p => exact ⟨p, rfl⟩
      obtain ⟨info, hinfo⟩ := generate_move_info_ok_of_piece sanOf ml b mv
        (determine_flags pf b mv) (fen b) "" (tokens k) p hp
      have hprev' : ∀ i (hi : i < rest.length), i < j' →
          piece_at (boardAfter (push b mv) (rest.take i))
            (rest.get ⟨i, hi⟩).from_square ≠ none := by
        intro i hi hij
        have := hprev (i + 1) (Nat.succ_lt_succ hi) (Nat.succ_lt_succ hij)
        simpa [boardAfter, List.foldl] using this
      have hempty' : piece_at (boardAfter (push b mv) (rest.take j'))
          (rest.get ⟨j', hj'⟩).from_square = none := by
        simpa [boardAfter, List.foldl] using hempty
      have hrec := ih (push b mv) (k + 1) j' hj' hprev' hempty'
      simp only [convertMoves]
      rw [hinfo, hrec]
      rfl

/-- C7: a game containing a move whose origin square is empty in the
position in which it is applied (the first such move, every earlier move
starting from an occupied square) makes the conversion fail with the error
naming that move's origin square and coordinate text; the result is not a
success, so no move-record list is returned and no artifact is written
(the source writes the file only on the success path). -/
theorem C7_empty_origin_aborts (pf : PositionFlags)
    (sanOf : Board → Move → String) (tokens : Nat → String) (g : GameInput)
    (j : Nat) (hj : j < (mainMoves g).length)
    (hprev : ∀ i (hi : i < (mainMoves g).length), i < j →
      piece_at (boardAfter g.start ((mainMoves g).take i))
        ((mainMoves g).get ⟨i, hi⟩).from_square ≠ none)
    (hempty : piece_at (boardAfter g.start ((mainMoves g).take j))
      ((mainMoves g).get ⟨j, hj⟩).from_square = none) :
    convert_to_json pf sanOf tokens g =
      Except.error (missingPieceMsg ((mainMoves g).get ⟨j, hj⟩)) ∧
    exceptIsOk (convert_to_json pf sanOf tokens g) = false := by
  have h := convertMoves_error_at pf sanOf tokens g.mainline (mainMoves g)
    g.start 0 j hj hprev hempty
  refine ⟨?_, ?_⟩
  · unfold convert_to_json
    rw [h]
  · unfold exceptIsOk convert_to_json
    rw [h]

/-- Witness for C7 on the game whose single move e3-e4 starts from the
empty square e3. -/
theorem C7_empty_origin_aborts_witness :
    convert_to_json POSITION_FLAGS sanX tokX gBad =
      Except.error (missingPieceMsg mBad) ∧
    exceptIsOk (convert_to_json POSITION_FLAGS sanX tokX gBad) = false :=
  C7_empty_origin_aborts POSITION_FLAGS sanX tokX gBad 0 (by decide)
    (fun i _ h0 => absurd h0 (Nat.not_lt_zero i)) rfl

/-- Record building with two different tokens yields the same outcome up
to the moveId field. -/
theorem generate_move_info_eraseId (sanOf : Board → Move → String)
    (ml : List (Move × String)) (b : Board) (m : Move)
    (flags bf af t1 t2 : String) :
    (generate_move_info sanOf ml b m flags bf af t1).map eraseId =
    (generate_move_info sanOf ml b m flags bf af t2).map eraseId := by
  unfold generate_move_info
  cases piece_at b m.from_square with
  | none => rfl
  | some p =>
    by_cases hcf : 'c' ∈ flags.data <;> by_cases hpf : 'p' ∈ flags.data <;>
      simp [eraseId, hcf, hpf, Except.map]

/-- The conversion loop with two different token streams yields the same
outcome up to the moveId fields. -/
theorem convertMoves_eraseId (pf : PositionFlags)
    (sanOf : Board → Move → String) (ml : List (Move × String))
    (t1 t2 : Nat → String) :
    ∀ (ms : List Move) (b : Board) (k : Nat),
      (convertMoves pf sanOf t1 ml b ms k).map (List.map eraseId) =
      (convertMoves pf sanOf t2 ml b ms k).map (List.map eraseId) := by
  intro ms
  induction ms with
  | nil => intro b k; rfl
  | cons mv rest ih =>
    intro b k
    simp only [convertMoves]
    have hgen := generate_move_info_eraseId sanOf ml b mv
      (determine_flags pf b mv) (fen b) "" (t1 k) (t2 k)
    have hrec := ih (push b mv) (k + 1)
    cases h1 : generate_move_info sanOf ml b mv (determine_flags pf b mv)
        (fen b) "" (t1 k) with
    | error e1 =>
      cases h2 : generate_move_info sanOf ml b mv (determine_flags pf b mv)
          (fen b) "" (t2 k) with
      | error e2 =>
        rw [h1, h2] at hgen
        simp only [Except.map, Except.error.injEq] at hgen
        simp [Except.map, hgen]
      | ok r2 =>
        rw [h1, h2] at hgen
        simp [Except.map] at hgen
    | ok r1 =>
      cases h2 : generate_move_info sanOf ml b mv (determine_flags pf b mv)
          (fen b) "" (t2 k) with
      | error e2 =>
        rw [h1, h2] at hgen
        simp [Except.map] at hgen
      | ok r2 =>
        rw [h1, h2] at hgen
        simp only [Except.map, Except.ok.injEq] at hgen
        cases hr1 : convertMoves pf sanOf t1 ml (push b mv) rest (k + 1) with
        | error e1 =>
          cases hr2 : convertMoves pf sanOf t2 ml (push b mv) rest (k + 1) with
          | error e2 =>
            rw [hr1, hr2] at hrec
            simp only [Except.map, Except.error.injEq] at hrec
            simp [Except.map, hrec]
          | ok rs2 =>
            rw [hr1, hr2] at hrec
            simp [Except.map] at hrec
        | ok rs1 =>
          cases hr2 : convertMoves pf sanOf t2 ml (push b mv) rest (k + 1) with
          | error e2 =>
            rw [hr1, hr2] at hrec
            simp [Except.map] at hrec
          | ok rs2 =>
            rw [hr1, hr2] at hrec
            simp only [Except.map, Except.ok.injEq] at hrec
            simp only [Except.map, Except.ok.injEq, List.map_cons,
              List.cons.injEq]
            refine ⟨?_, hrec⟩
            have : eraseId { r1 with after := fen (push b mv) } =
                { eraseId r1 with after := fen (push b mv) } := rfl
            rw [this, hgen]
            rfl

/-- C9 amended: conversion is a pure function of the input game and the
token sequence drawn from the identifier service; with the tokens fixed it
is deterministic, and every field other than the moveId tokens (and the
token-derived artifact filename) is independent of the drawn tokens. -/
theorem C9_deterministic_modulo_tokens (pf : PositionFlags)
    (sanOf : Board → Move → String) (g : GameInput) (t1 t2 : Nat → String) :
    (convert_to_json pf sanOf t1 g).map
      (fun res => { res.1 with moves := res.1.moves.map eraseId }) =
    (convert_to_json pf sanOf t2 g).map
      (fun res => { res.1 with moves := res.1.moves.map eraseId }) := by
  have h := convertMoves_eraseId pf sanOf g.mainline t1 t2 (mainMoves g) g.start 0
  unfold convert_to_json
  cases h1 : convertMoves pf sanOf t1 g.mainline g.start (mainMoves g) 0 with
  | error e1 =>
    cases h2 : convertMoves pf sanOf t2 g.mainline g.start (mainMoves g) 0 with
    | error e2 =>
      rw [h1, h2] at h
      simp only [Except.map, Except.error.injEq] at h
      simp [Except.map, h]
    | ok rs2 =>
      rw [h1, h2] at h
      simp [Except.map] at h
  | ok rs1 =>
    cases h2 : convertMoves pf sanOf t2 g.mainline g.start (mainMoves g) 0 with
    | error e2 =>
      rw [h1, h2] at h
      simp [Except.map] at h
    | ok rs2 =>
      rw [h1, h2] at h
      simp only [Except.map, Except.ok.injEq] at h
      simp only [Except.map, Except.ok.injEq]
      simpa using h

/-- A flag from the standard table is one of the seven one-character
codes. -/
theorem determine_flags_mem (b : Board) (m : Move) :
    determine_flags POSITION_FLAGS b m ∈ ["n", "c", "e", "k", "q", "b", "p"] := by
  unfold determine_flags POSITION_FLAGS
  split_ifs <;> simp

/-- Each of the seven standard flag codes is a single character, and none
contains both the character c and the character p. -/
theorem flag_char_exclusive (fl : String)
    (h : fl ∈ ["n", "c", "e", "k", "q", "b", "p"]) :
    fl.length = 1 ∧ (fl.data.contains 'c' && fl.data.contains 'p') = false := by
  simp only [List.mem_cons, List.not_mem_nil, or_false] at h
  rcases h with rfl | rfl | rfl | rfl | rfl | rfl | rfl <;> decide

/-- Every record produced by the conversion loop under the standard flag
table has a one-character flag drawn from the seven codes and never both
conditional keys. -/
theorem convertMoves_flags_inv (sanOf : Board → Move → String)
    (tokens : Nat → String) (ml : List (Move × String)) :
    ∀ (ms : List Move) (b : Board) (k : Nat) (rs : List MoveRecord),
      convertMoves POSITION_FLAGS sanOf tokens ml b ms k = Except.ok rs →
      ∀ r ∈ rs, r.flags ∈ ["n", "c", "e", "k", "q", "b", "p"] ∧
        r.flags.length = 1 ∧
        (r.captured.isSome && r.promotion.isSome) = false := by
  intro ms
  induction ms with
  | nil =>
    intro b k rs h
    simp only [convertMoves, Except.ok.injEq] at h
    subst h
    intro r hr
    simp at hr
  | cons mv rest ih =>
    intro b k rs h
    simp only [convertMoves] at h
    cases hgen : generate_move_info sanOf ml b mv
        (determine_flags POSITION_FLAGS b mv) (fen b) "" (tokens k) with
    | error e => rw [hgen] at h; cases h
    | ok info =>
      rw [hgen] at h
      cases hrec : convertMoves POSITION_FLAGS sanOf tokens ml (push b mv)
          rest (k + 1) with
      | error e => rw [hrec] at h; cases h
      | ok rs' =>
        rw [hrec] at h
        simp only [Except.ok.injEq] at h
        subst h
        intro r hr
        rcases List.mem_cons.mp hr with hr0 | hr'
        · subst hr0
          obtain ⟨-, -, hfl, hcap, hpro⟩ := generate_move_info_fields sanOf ml
            b mv (determine_flags POSITION_FLAGS b mv) (fen b) "" (tokens k)
            info hgen
          have hmem : info.flags ∈ ["n", "c", "e", "k", "q", "b", "p"] :=
            hfl ▸ determine_flags_mem b mv
          have hx := flag_char_exclusive info.flags hmem
          refine ⟨hmem, hx.1, ?_⟩
          rw [show ({ info with after := fen (push b mv) } : MoveRecord).captured
              = info.captured from rfl,
            show ({ info with after := fen (push b mv) } : MoveRecord).promotion
              = info.promotion from rfl, hcap, hpro]
          rw [hfl] at hx
          exact hx.2
        · exact ih (push b mv) (k + 1) rs' hrec r hr'

/-- C10: with the standard flag table, every record emitted by the
converter has a flags field that is exactly one character drawn from
n, c, e, k, q, b, p, and no emitted record carries both a "captured" key
and a "promotion" key. -/
theorem C10_flags_invariant (sanOf : Board → Move → String)
    (tokens : Nat → String) (g : GameInput) (doc : Document)
    (fileToken : String)
    (h : convert_to_json POSITION_FLAGS sanOf tokens g =
      Except.ok (doc, fileToken)) :
    ∀ r ∈ doc.moves, r.flags ∈ ["n", "c", "e", "k", "q", "b", "p"] ∧
      r.flags.length = 1 ∧
      (r.captured.isSome && r.promotion.isSome) = false := by
  unfold convert_to_json at h
  cases hc : convertMoves POSITION_FLAGS sanOf tokens g.mainline g.start
      (mainMoves g) 0 with
  | error e => rw [hc] at h; cases h
  | ok rs =>
    rw [hc] at h
    simp only [Except.ok.injEq, Prod.mk.injEq] at h
    obtain ⟨h3, -⟩ := h
    rw [← h3]
    exact convertMoves_flags_inv sanOf tokens g.mainline (mainMoves g)
      g.start 0 rs hc

/-- Witness for C10 on the first record of the converted one-move game
e2-e4. -/
theorem C10_flags_invariant_witness :
    recE2E4.flags ∈ ["n", "c", "e", "k", "q", "b", "p"] ∧
    recE2E4.flags.length = 1 ∧
    (recE2E4.captured.isSome && recE2E4.promotion.isSome) = false :=
  C10_flags_invariant sanX tokX gE2E4 (docOf runE2E4) (fnOf runE2E4) rfl
    recE2E4 (by decide)

/-- There is a record whose flag string does mark a capture, produced by
the pipeline on the capturing promotion, confirming the C10 invariant is
not vacuous on capture records either. -/
theorem capture_record_exclusive :
    ((docOf runPromo).moves.headD default).captured = some (some "r") ∧
    ((docOf runPromo).moves.headD default).promotion = none :=
  ⟨rfl, rfl⟩

end Pgn2Json
